import Mathlib

/-
Verification development for the derivative-hedging-rl numerical core.

Shallow embedding of:
  * src/pricing/black_scholes.py        (BlackScholesModel.price / greeks)
  * src/baselines/hedging_strategies.py (BaseHedgingStrategy and its four
    concrete strategies)
  * src/environments/hedging_env.py     (OptionHedgingEnv reset / step)
  * src/evaluation/metrics.py           (HedgingEvaluator.simulate_price_path
    and backtest_strategy, modelled at the NumPy-RNG event level)

Conventions of the embedding:
  * Python floats are modelled as real numbers.
  * scipy.stats.norm.cdf and norm.pdf are external library functions; they are
    passed in as explicit function parameters, written cdf and pdf below.
    Theorems that need analytic facts about them (for example
    cdf x + cdf (-x) = 1) take those facts as hypotheses.
  * np.log, np.exp, np.sqrt are Real.log, Real.exp, Real.sqrt.
  * A Python function that can raise is modelled with Except String.
  * Mutable objects are modelled by explicit state passing: each method takes
    the state record and returns the updated record.
-/

/-! ## Pricing engine: src/pricing/black_scholes.py -/

/-- Result record of BlackScholesModel.greeks (the returned dict). -/
structure Greeks where
  delta : ℝ
  gamma : ℝ
  vega : ℝ
  theta : ℝ
  rho : ℝ

/-- Embedding of BlackScholesModel.price.  For T <= 0 it returns the intrinsic
value without looking at option_type beyond the call test; for T > 0 it
evaluates the closed form and raises ValueError on an unknown option_type. -/
noncomputable def bsPrice (cdf : ℝ → ℝ) (S K T r sigma : ℝ)
    (option_type : String) : Except String ℝ :=
  if T ≤ 0 then
    if option_type = "call" then .ok (max (S - K) 0) else .ok (max (K - S) 0)
  else
    let d1 := (Real.log (S / K) + (r + 0.5 * sigma ^ 2) * T) / (sigma * Real.sqrt T)
    let d2 := d1 - sigma * Real.sqrt T
    if option_type = "call" then
      .ok (S * cdf d1 - K * Real.exp (-r * T) * cdf d2)
    else if option_type = "put" then
      .ok (K * Real.exp (-r * T) * cdf (-d2) - S * cdf (-d1))
    else
      .error ("Invalid option_type: " ++ option_type)

/-- Value of bsPrice for callers that pass a validated option_type; the error
branch of bsPrice is unreachable for option_type in \x7bcall, put\x7d, and the
environment and the strategies validate or fix option_type before calling. -/
noncomputable def bsPriceVal (cdf : ℝ → ℝ) (S K T r sigma : ℝ)
    (option_type : String) : ℝ :=
  match bsPrice cdf S K T r sigma option_type with
  | .ok v => v
  | .error _ => 0

/-- Embedding of BlackScholesModel.greeks.  Every branch treats any
option_type other than "call" as a put; the function never raises. -/
noncomputable def bsGreeks (cdf pdf : ℝ → ℝ) (S K T r sigma : ℝ)
    (option_type : String) : Greeks :=
  if T ≤ 0 then
    { delta := if option_type = "call" ∧ S > K then 1 else 0
      gamma := 0, vega := 0, theta := 0, rho := 0 }
  else
    let d1 := (Real.log (S / K) + (r + 0.5 * sigma ^ 2) * T) / (sigma * Real.sqrt T)
    let d2 := d1 - sigma * Real.sqrt T
    let delta := if option_type = "call" then cdf d1 else -cdf (-d1)
    let gamma := pdf d1 / (S * sigma * Real.sqrt T)
    let vega := S * pdf d1 * Real.sqrt T / 100
    let term1 := -(S * pdf d1 * sigma) / (2 * Real.sqrt T)
    let theta :=
      if option_type = "call" then
        (term1 + -(r * K * Real.exp (-r * T) * cdf d2)) / 365
      else
        (term1 + r * K * Real.exp (-r * T) * cdf (-d2)) / 365
    let rho :=
      if option_type = "call" then
        K * T * Real.exp (-r * T) * cdf d2 / 100
      else
        -(K * T * Real.exp (-r * T) * cdf (-d2)) / 100
    { delta := delta, gamma := gamma, vega := vega, theta := theta, rho := rho }

/-- Constant function used to instantiate the abstract normal cdf in concrete
evaluations; it satisfies cdf x + cdf (-x) = 1. -/
noncomputable def constHalf : ℝ → ℝ := fun _ => 1 / 2

/-- Constant function used to instantiate the abstract normal pdf in concrete
evaluations. -/
noncomputable def constOne : ℝ → ℝ := fun _ => 1

/-! ## Baseline strategies: src/baselines/hedging_strategies.py -/

/-- Mutable state of a BaseHedgingStrategy object: the constructor parameters
together with the portfolio fields set in BaseHedgingStrategy.__init__. -/
structure StrategyState where
  S0 : ℝ
  K : ℝ
  T : ℝ
  r : ℝ
  sigma : ℝ
  option_type : String
  transaction_cost : ℝ
  stock_position : ℝ
  option_position : ℝ
  cash : ℝ
  total_costs : ℝ

/-- Embedding of BaseHedgingStrategy.__init__: stores the parameters verbatim
(the constructor performs no validation) and initializes the portfolio to
stock_position = 0, option_position = -1 (short one option), cash = 0,
total_costs = 0. -/
def mkStrategy (S0 K T r sigma : ℝ) (option_type : String)
    (transaction_cost : ℝ) : StrategyState :=
  { S0 := S0, K := K, T := T, r := r, sigma := sigma
    option_type := option_type, transaction_cost := transaction_cost
    stock_position := 0, option_position := -1, cash := 0, total_costs := 0 }

/-- The trade_info dict returned by BaseHedgingStrategy.rebalance. -/
structure TradeInfo where
  stock_trade : ℝ
  transaction_cost : ℝ
  new_position : ℝ

/-- The portfolio_info dict returned by BaseHedgingStrategy.get_portfolio_value. -/
structure PortfolioInfo where
  portfolio_value : ℝ
  cash : ℝ
  stock_value : ℝ
  option_value : ℝ
  option_liability : ℝ

/-- Embedding of BaseHedgingStrategy.initialize.  The abstract method
get_hedge_positions is passed in as the function hedge (each concrete
strategy supplies its own); an exception raised while pricing propagates. -/
noncomputable def initStrategy (cdf : ℝ → ℝ)
    (hedge : StrategyState → ℝ → ℝ → ℝ) (s : StrategyState) :
    Except String (ℝ × StrategyState) :=
  match bsPrice cdf s.S0 s.K s.T s.r s.sigma s.option_type with
  | .error e => .error e
  | .ok initial_option_value =>
    let s1 := { s with cash := initial_option_value }
    let pos := hedge s1 s1.S0 s1.T
    let s2 := { s1 with stock_position := pos }
    let trade_cost := |s2.stock_position| * s2.S0
    let tc := trade_cost * s2.transaction_cost
    let s3 := { s2 with cash := s2.cash - (trade_cost + tc)
                        total_costs := s2.total_costs + tc }
    .ok (initial_option_value, s3)

/-- Embedding of BaseHedgingStrategy.rebalance (total: it prices nothing
itself, only the strategy's hedge rule is consulted). -/
noncomputable def rebalance (hedge : StrategyState → ℝ → ℝ → ℝ)
    (s : StrategyState) (S tau : ℝ) : TradeInfo × StrategyState :=
  let target_stock := hedge s S tau
  let stock_trade := target_stock - s.stock_position
  let trade_cost := |stock_trade| * S
  let tc := trade_cost * s.transaction_cost
  let s1 := { s with cash := s.cash - (stock_trade * S + tc)
                     stock_position := target_stock
                     total_costs := s.total_costs + tc }
  ({ stock_trade := stock_trade, transaction_cost := tc
     new_position := target_stock }, s1)

/-- Embedding of BaseHedgingStrategy.get_portfolio_value. -/
noncomputable def getPortfolioValue (cdf : ℝ → ℝ) (s : StrategyState)
    (S tau : ℝ) : Except String PortfolioInfo :=
  match (if tau > 0 then bsPrice cdf S s.K tau s.r s.sigma s.option_type
         else if s.option_type = "call" then .ok (max (S - s.K) 0)
         else .ok (max (s.K - S) 0)) with
  | .error e => .error e
  | .ok option_value =>
    let stock_value := s.stock_position * S
    let option_liability := option_value * s.option_position
    .ok { portfolio_value := s.cash + stock_value + option_liability
          cash := s.cash, stock_value := stock_value
          option_value := option_value, option_liability := option_liability }

/-- Embedding of DeltaHedging.get_hedge_positions (the "stock" entry of the
returned dict). -/
noncomputable def deltaHedgePosition (cdf pdf : ℝ → ℝ) (s : StrategyState)
    (S tau : ℝ) : ℝ :=
  if tau ≤ 0 then 0
  else
    let g := bsGreeks cdf pdf S s.K tau s.r s.sigma s.option_type
    (-s.option_position) * g.delta

/-- Embedding of DeltaGammaHedging.get_hedge_positions. -/
noncomputable def deltaGammaHedgePosition (cdf pdf : ℝ → ℝ) (s : StrategyState)
    (S tau : ℝ) : ℝ :=
  if tau ≤ 0 then 0
  else
    let g := bsGreeks cdf pdf S s.K tau s.r s.sigma s.option_type
    let gamma_adjustment := g.gamma * (S - s.S0) * 0.5
    let adjusted_delta := g.delta + gamma_adjustment
    (-s.option_position) * adjusted_delta

/-- Embedding of DeltaGammaVegaHedging.get_hedge_positions; gamma_weight and
vega_weight are the subclass constructor fields (defaults 0.5 and 0.01). -/
noncomputable def deltaGammaVegaHedgePosition (cdf pdf : ℝ → ℝ)
    (gamma_weight vega_weight : ℝ) (s : StrategyState) (S tau : ℝ) : ℝ :=
  if tau ≤ 0 then 0
  else
    let g := bsGreeks cdf pdf S s.K tau s.r s.sigma s.option_type
    let price_change := S - s.S0
    let gamma_adjustment := gamma_weight * g.gamma * price_change
    let vega_adjustment := vega_weight * g.vega * (s.sigma - 0.2)
    let adjusted_delta := g.delta + gamma_adjustment + vega_adjustment
    (-s.option_position) * adjusted_delta

/-- Modelled from the spec: the hedge target that claim C7 attributes to
Delta-Gamma-Vega hedging, composing the Delta-Gamma gamma_adjustment
(gamma * (S - S0) * 0.5) with the gamma_weight multiplier. -/
noncomputable def specDGVHedgePosition (cdf pdf : ℝ → ℝ)
    (gamma_weight vega_weight : ℝ) (s : StrategyState) (S tau : ℝ) : ℝ :=
  if tau ≤ 0 then 0
  else
    let g := bsGreeks cdf pdf S s.K tau s.r s.sigma s.option_type
    let gamma_adjustment := g.gamma * (S - s.S0) * 0.5
    let vega_adjustment := vega_weight * g.vega * (s.sigma - 0.2)
    (-s.option_position) * (g.delta + gamma_weight * gamma_adjustment + vega_adjustment)

/-- Extra state of MinimumVarianceHedging: the base state plus the rolling
observation windows and the lookback parameter. -/
structure MVState where
  base : StrategyState
  lookback_window : ℕ
  price_history : List ℝ
  option_value_history : List ℝ

/-- Elementwise np.diff(xs) / xs[:-1]: period-over-period simple returns. -/
noncomputable def pctReturns (xs : List ℝ) : List ℝ :=
  List.zipWith (fun prev next => (next - prev) / prev) xs xs.tail

/-- np.mean of a list (sum / length; 0 / 0 = 0 on the empty list). -/
noncomputable def npMean (xs : List ℝ) : ℝ := xs.sum / xs.length

/-- np.var of a list (population variance, default ddof = 0). -/
noncomputable def npVar (xs : List ℝ) : ℝ :=
  (xs.map (fun x => (x - npMean xs) ^ 2)).sum / xs.length

/-- np.cov(xs, ys)[0, 1]: sample covariance, default normalization N - 1. -/
noncomputable def npCovXY (xs ys : List ℝ) : ℝ :=
  (List.zipWith (fun x y => (x - npMean xs) * (y - npMean ys)) xs ys).sum /
    ((xs.length : ℝ) - 1)

/-- Python list[-k:] keeps the last k elements, except that list[-0:] is the
whole list; used by the rolling-window truncation. -/
def lastWindow (k : ℕ) (xs : List ℝ) : List ℝ :=
  if k = 0 then xs else xs.drop (xs.length - k)

/-- Embedding of MinimumVarianceHedging.get_hedge_positions: appends the new
observation, truncates both histories to the lookback window, and either
falls back to the delta hedge (fewer than 3 observations) or uses the
covariance hedge ratio.  Returns the "stock" entry and the mutated state. -/
noncomputable def minVarHedgePosition (cdf pdf : ℝ → ℝ) (m : MVState)
    (S tau : ℝ) : Except String (ℝ × MVState) :=
  if tau ≤ 0 then .ok (0, m)
  else
    match bsPrice cdf S m.base.K tau m.base.r m.base.sigma m.base.option_type with
    | .error e => .error e
    | .ok option_value =>
      let ph0 := m.price_history ++ [S]
      let oh0 := m.option_value_history ++ [option_value]
      let ph := if ph0.length > m.lookback_window then lastWindow m.lookback_window ph0 else ph0
      let oh := if ph0.length > m.lookback_window then lastWindow m.lookback_window oh0 else oh0
      let stock_position :=
        if ph.length < 3 then
          let g := bsGreeks cdf pdf S m.base.K tau m.base.r m.base.sigma m.base.option_type
          (-m.base.option_position) * g.delta
        else
          let stock_returns := pctReturns ph
          let option_returns := pctReturns oh
          if stock_returns.length > 0 then
            let hedge_ratio := npCovXY option_returns stock_returns / (npVar stock_returns + 1e-8)
            (-m.base.option_position) * hedge_ratio
          else 0
      .ok (stock_position, { m with price_history := ph, option_value_history := oh })

/-! ## Environment: src/environments/hedging_env.py -/

/-- Mutable state of an OptionHedgingEnv instance: constructor parameters and
the per-episode state variables.  The observation vector and the info dict of
the source are derived views and are not modelled. -/
structure EnvState where
  S0 : ℝ
  K : ℝ
  T : ℝ
  r : ℝ
  sigma : ℝ
  n_steps : ℕ
  dt : ℝ
  option_type : String
  action_mode : String
  transaction_cost : ℝ
  risk_penalty : ℝ
  current_step : ℕ
  S : ℝ
  position : ℝ
  option_position : ℝ
  cash : ℝ
  pnl : ℝ
  total_transaction_costs : ℝ

/-- Embedding of OptionHedgingEnv.__init__: the only validation performed is
the option_type and action_mode membership tests; every other parameter,
including non-positive sigma and T, is stored unchecked. -/
noncomputable def envInit (S0 K T r sigma : ℝ) (n_steps : ℕ)
    (option_type action_mode : String) (transaction_cost risk_penalty : ℝ) :
    Except String EnvState :=
  if option_type ≠ "call" ∧ option_type ≠ "put" then
    .error ("option_type must be call or put, got " ++ option_type)
  else if action_mode ≠ "continuous" ∧ action_mode ≠ "discrete" then
    .error ("action_mode must be continuous or discrete, got " ++ action_mode)
  else
    .ok { S0 := S0, K := K, T := T, r := r, sigma := sigma
          n_steps := n_steps, dt := T / (n_steps : ℝ)
          option_type := option_type, action_mode := action_mode
          transaction_cost := transaction_cost, risk_penalty := risk_penalty
          current_step := 0, S := S0, position := 0, option_position := -1
          cash := 0, pnl := 0, total_transaction_costs := 0 }

/-- Embedding of OptionHedgingEnv.reset: zeroes the per-episode state and
credits the premium of the freshly priced option to cash. -/
noncomputable def envReset (cdf : ℝ → ℝ) (e : EnvState) : EnvState :=
  let e1 := { e with current_step := 0, S := e.S0, position := 0, cash := 0
                     pnl := 0, total_transaction_costs := 0 }
  let option_value := bsPriceVal cdf e1.S e1.K e1.T e1.r e1.sigma e1.option_type
  { e1 with cash := option_value }

/-- The self.discrete_actions array [-0.5, -0.1, 0.0, 0.1, 0.5]. -/
noncomputable def discreteActions (i : Fin 5) : ℝ :=
  match i.1 with
  | 0 => -0.5
  | 1 => -0.1
  | 2 => 0
  | 3 => 0.1
  | _ => 0.5

/-- An action passed to step: a continuous target hedge ratio when the
environment was built with action_mode continuous, or one of the five
discrete adjustments.  Passing the wrong payload kind for the configured
action_mode is a caller type error in the source and is not modelled. -/
inductive HedgeAction where
  | cont (x : ℝ)
  | disc (i : Fin 5)

/-- The action-parsing block at the top of OptionHedgingEnv.step. -/
noncomputable def parseTarget (e : EnvState) (a : HedgeAction) : ℝ :=
  match a with
  | .cont x => x
  | .disc i => e.position + discreteActions i

/-- Embedding of OptionHedgingEnv._calculate_reward, called on the state after
the step update (the source passes option_value but never reads it). -/
noncomputable def calcReward (cdf pdf : ℝ → ℝ) (e : EnvState)
    (tau _option_value : ℝ) : ℝ :=
  let hedging_error :=
    if tau > 0 then
      let g := bsGreeks cdf pdf e.S e.K tau e.r e.sigma e.option_type
      |e.position - g.delta|
    else |e.position|
  let hedging_penalty := -hedging_error * e.risk_penalty
  let cost_penalty := -e.total_transaction_costs * 0.1
  let terminal_reward := if e.n_steps ≤ e.current_step then e.pnl else 0
  hedging_penalty + cost_penalty + terminal_reward

/-- Embedding of OptionHedgingEnv.step.  The Gaussian draw dW from the
per-instance seeded generator is passed in explicitly; the returned tuple is
(new state, reward, terminated, truncated), the observation and info views
being omitted.  terminated is current_step >= n_steps after the increment and
truncated is always False. -/
noncomputable def envStep (cdf pdf : ℝ → ℝ) (e : EnvState) (a : HedgeAction)
    (dW : ℝ) : EnvState × ℝ × Bool × Bool :=
  let target0 := parseTarget e a
  let target := max (-2) (min target0 2)
  let trade_size := target - e.position
  let transaction_cost := |trade_size| * e.S * e.transaction_cost
  let total_tc := e.total_transaction_costs + transaction_cost
  let cash1 := e.cash - (trade_size * e.S + transaction_cost)
  let Snew := e.S * Real.exp ((e.r - 0.5 * e.sigma ^ 2) * e.dt + e.sigma * dW)
  let cash2 := cash1 * Real.exp (e.r * e.dt)
  let stepNew := e.current_step + 1
  let tau := e.T - (stepNew : ℝ) * e.dt
  let option_value :=
    if tau > 0 then bsPriceVal cdf Snew e.K tau e.r e.sigma e.option_type
    else if e.option_type = "call" then max (Snew - e.K) 0
    else max (e.K - Snew) 0
  let portfolio_value := cash2 + target * Snew - option_value
  let initial_premium := bsPriceVal cdf e.S0 e.K e.T e.r e.sigma e.option_type
  let pnlNew := portfolio_value - initial_premium
  let e1 := { e with current_step := stepNew, S := Snew, position := target
                     cash := cash2, pnl := pnlNew
                     total_transaction_costs := total_tc }
  let reward := calcReward cdf pdf e1 tau option_value
  let terminated := decide (e1.n_steps ≤ e1.current_step)
  (e1, reward, terminated, false)

/-- A concrete two-step environment configuration for the C6 witness. -/
noncomputable def sampleEnv : EnvState :=
  { S0 := 100, K := 100, T := 1, r := 0.05, sigma := 0.2, n_steps := 2
    dt := 1 / 2, option_type := "call", action_mode := "continuous"
    transaction_cost := 0.001, risk_penalty := 0.1, current_step := 0
    S := 100, position := 0, option_position := -1, cash := 0, pnl := 0
    total_transaction_costs := 0 }

/-- The (terminated, truncated) flags returned by a sequence of step calls,
one list entry per call, threading the environment state. -/
noncomputable def runFlags (cdf pdf : ℝ → ℝ) :
    EnvState → List (HedgeAction × ℝ) → List (Bool × Bool)
  | _, [] => []
  | e, (a, w) :: rest =>
    let out := envStep cdf pdf e a w
    (out.2.2.1, out.2.2.2) :: runFlags cdf pdf out.1 rest

/-! ## Evaluator: src/evaluation/metrics.py

backtest_strategy drives the NumPy *global* RNG: it calls np.random.seed once
when its seed argument is not None, and simulate_price_path reseeds per
episode with seed + i - except that the argument is written
`seed + i if seed else None`, so a falsy seed (0 or None) passes None and
simulate_price_path then draws from the global stream without reseeding.

The RNG is modelled at the event level: the global state records the last
seed planted and how many normal variates were drawn since; each draw yields
the token (last seed, draw index).  The GBM price arithmetic applied to the
drawn variates is the same deterministic map in every episode, so two
episodes receive the same price path exactly when they consume the same
tokens under the same noise interpretation. -/

/-- State of the np.random global generator, at the event level. -/
structure NpRandom where
  lastSeed : Option ℕ
  draws : ℕ
  deriving DecidableEq, Repr

/-- A token identifying one normal variate: the seed in force and the index
of the draw since that seed was planted. -/
def RngToken := Option ℕ × ℕ
deriving instance DecidableEq, Repr for RngToken

/-- np.random.seed(s): resets the global stream. -/
def npSeed (s : ℕ) (_g : NpRandom) : NpRandom := ⟨some s, 0⟩

/-- One np.random.normal draw: returns its identifying token. -/
def npDraw (g : NpRandom) : RngToken × NpRandom :=
  ((g.lastSeed, g.draws), ⟨g.lastSeed, g.draws + 1⟩)

/-- n successive draws from the global stream. -/
def npDrawN : ℕ → NpRandom → List RngToken × NpRandom
  | 0, g => ([], g)
  | n + 1, g =>
    let (t, g1) := npDraw g
    let (ts, g2) := npDrawN n g1
    (t :: ts, g2)

/-- The tokens a fresh stream seeded with s yields over n draws. -/
def seedTokens (s n : ℕ) : List RngToken :=
  (List.range n).map fun k => (some s, k)

/-- Embedding of HedgingEvaluator.simulate_price_path at the RNG event level:
reseed if a seed is given, then draw n_steps normal variates. -/
def simulatePathTokens (seed : Option ℕ) (n_steps : ℕ) (g : NpRandom) :
    List RngToken × NpRandom :=
  let g1 := match seed with
    | some s => npSeed s g
    | none => g
  npDrawN n_steps g1

/-- The GBM arithmetic of simulate_price_path: prices[0] = S0 and
prices[i+1] = prices[i] * exp((r - sigma^2 / 2) dt + sigma * dW_i), where the
noise interpretation maps each RNG token to its normal variate scaled by
sqrt(dt). -/
noncomputable def gbmPath (noise : RngToken → ℝ) (S0 r sigma dt : ℝ) :
    List RngToken → List ℝ
  | [] => [S0]
  | t :: ts =>
    S0 :: gbmPath noise (S0 * Real.exp ((r - 0.5 * sigma ^ 2) * dt + sigma * noise t))
      r sigma dt ts

/-- The per-episode seed argument `seed + i if seed else None` passed by
backtest_strategy to simulate_price_path (Python truthiness: both None and 0
are falsy). -/
def episodeSeedArg (seed : Option ℕ) (i : ℕ) : Option ℕ :=
  match seed with
  | none => none
  | some s => if s ≠ 0 then some (s + i) else none

/-- The episode loop of backtest_strategy: token streams of the price paths
of the episodes with the given indices. -/
def backtestGo (seed : Option ℕ) (n_steps : ℕ) :
    List ℕ → NpRandom → List (List RngToken) × NpRandom
  | [], g => ([], g)
  | i :: is, g =>
    let (ts, g1) := simulatePathTokens (episodeSeedArg seed i) n_steps g
    let (rest, g2) := backtestGo seed n_steps is g1
    (ts :: rest, g2)

/-- Embedding of HedgingEvaluator.backtest_strategy at the RNG event level:
seed the global stream once if a seed was given, then generate one price path
per episode.  The strategy evaluation consumes no randomness (a fresh
strategy instance is deterministic in the price path), so the episode set is
fully determined by the returned token streams. -/
def backtestTokens (seed : Option ℕ) (num_episodes n_steps : ℕ)
    (g : NpRandom) : List (List RngToken) × NpRandom :=
  let g0 := match seed with
    | some s => npSeed s g
    | none => g
  backtestGo seed n_steps (List.range num_episodes) g0

/-! ## Helper lemmas -/

/-- String disequality used to reduce option_type branches in evaluations. -/
@[simp] theorem putNeCallStr : ¬ ("put" : String) = "call" := by decide

/-- Except.isOk on a success, stated for simp. -/
@[simp] theorem exceptIsOkOk {ε α : Type} (v : α) :
    (Except.ok v : Except ε α).isOk = true := rfl

/-- Except.isOk on a failure, stated for simp. -/
@[simp] theorem exceptIsOkError {ε α : Type} (e : ε) :
    (Except.error e : Except ε α).isOk = false := rfl

/-- bsPrice never raises on a validated option_type. -/
theorem bsPrice_valid_ok (cdf : ℝ → ℝ) (S K T r sigma : ℝ) (ot : String)
    (h : ot = "call" ∨ ot = "put") :
    ∃ v, bsPrice cdf S K T r sigma ot = .ok v := by
  rcases h with h | h <;> subst h <;> unfold bsPrice <;> split_ifs <;>
    first
    | exact ⟨_, rfl⟩
    | simp_all

/-- The rolling-window truncation never lengthens a list. -/
theorem lastWindow_length_le (k : ℕ) (xs : List ℝ) :
    (lastWindow k xs).length ≤ xs.length := by
  unfold lastWindow
  split
  · exact le_rfl
  · simp

/-! ## Claim theorems -/

/-- Claim C4: for every S > 0, K > 0, r, sigma and option_type, greeks with
T <= 0 returns delta = 1 if (option_type is call and S > K) else 0 - so 0 for
every put, including in-the-money puts, and for out-of-the-money calls - and
gamma = vega = theta = rho = 0. -/
theorem claim_C4 (cdf pdf : ℝ → ℝ) (S K T r sigma : ℝ) (option_type : String)
    (hS : 0 < S) (hK : 0 < K) (hT : T ≤ 0) :
    bsGreeks cdf pdf S K T r sigma option_type =
      { delta := if option_type = "call" ∧ S > K then 1 else 0
        gamma := 0, vega := 0, theta := 0, rho := 0 } := by
  rw [bsGreeks, if_pos hT]

/-- Witness for claim C4 at a concrete in-the-money expired call. -/
theorem claim_C4_witness :
    bsGreeks constHalf constOne 2 1 0 0 1 "call" =
      { delta := 1, gamma := 0, vega := 0, theta := 0, rho := 0 } := by
  rw [claim_C4 constHalf constOne 2 1 0 0 1 "call" (by norm_num) (by norm_num)
    le_rfl]
  norm_num

/-- Claim C10: the pricing engine validates option_type only in price and
only when T > 0; for T <= 0 any option_type other than "call" yields the put
intrinsic value max(K - S, 0) without raising, and greeks never raises,
treating every option_type other than "call" as a put in all branches. -/
theorem claim_C10 (cdf pdf : ℝ → ℝ) (S K T r sigma : ℝ)
    (option_type : String) :
    ((bsPrice cdf S K T r sigma option_type).isOk = false ↔
      0 < T ∧ option_type ≠ "call" ∧ option_type ≠ "put") ∧
    (T ≤ 0 → option_type ≠ "call" →
      bsPrice cdf S K T r sigma option_type = .ok (max (K - S) 0)) ∧
    (option_type ≠ "call" →
      bsGreeks cdf pdf S K T r sigma option_type =
        bsGreeks cdf pdf S K T r sigma "put") := by
  refine ⟨?_, ?_, ?_⟩
  · by_cases hT : T ≤ 0
    · have hn : ¬ 0 < T := not_lt.mpr hT
      unfold bsPrice
      rw [if_pos hT]
      split_ifs <;> simp [hn]
    · have h0 : 0 < T := not_le.mp hT
      unfold bsPrice
      rw [if_neg hT]
      split_ifs with h1 h2 <;> simp_all
  · intro hT hot
    unfold bsPrice
    rw [if_pos hT, if_neg hot]
  · intro hot
    unfold bsGreeks
    by_cases hT : T ≤ 0
    · rw [if_pos hT, if_pos hT]
      simp [hot]
    · rw [if_neg hT, if_neg hT]
      simp [hot]

/-- Witness for claim C10: at T = -1 an invalid option_type is priced as a
put, and its greeks coincide with the put greeks. -/
theorem claim_C10_witness :
    bsPrice constHalf 100 80 (-1) 0 1 "x" = .ok (max (80 - 100) 0) ∧
    bsGreeks constHalf constOne 100 80 (-1) 0 1 "x" =
      bsGreeks constHalf constOne 100 80 (-1) 0 1 "put" :=
  ⟨(claim_C10 constHalf constOne 100 80 (-1) 0 1 "x").2.1 (by norm_num)
      (by decide),
   (claim_C10 constHalf constOne 100 80 (-1) 0 1 "x").2.2 (by decide)⟩

/-- Claim C3 is refuted here: the environment constructor accepts
sigma = -1 and T = -1 without raising, and the strategy constructor accepts
an unknown option_type (storing it verbatim), so invalid configurations are
not always rejected at construction time. -/
theorem claim_C3_counterexample :
    (envInit 100 100 (-1) 0.05 (-1) 10 "call" "continuous" 0.001 0.1).isOk
        = true ∧
    (mkStrategy 100 100 (-1) 0.05 (-1) "banana" 0.001).sigma = -1 :=
  ⟨rfl, rfl⟩

/-- Claim C3 amended: construction-time validation exists only in
OptionHedgingEnv and covers exactly option_type and action_mode; non-positive
sigma or T are accepted by the environment, and BaseHedgingStrategy performs
no validation at all, storing every parameter verbatim. -/
theorem claim_C3_amended (S0 K T r sigma : ℝ) (n_steps : ℕ)
    (option_type action_mode : String) (transaction_cost risk_penalty : ℝ) :
    ((envInit S0 K T r sigma n_steps option_type action_mode transaction_cost
        risk_penalty).isOk = false ↔
      (option_type ≠ "call" ∧ option_type ≠ "put") ∨
      (action_mode ≠ "continuous" ∧ action_mode ≠ "discrete")) ∧
    mkStrategy S0 K T r sigma option_type transaction_cost =
      { S0 := S0, K := K, T := T, r := r, sigma := sigma
        option_type := option_type, transaction_cost := transaction_cost
        stock_position := 0, option_position := -1, cash := 0
        total_costs := 0 } := by
  refine ⟨?_, rfl⟩
  unfold envInit
  split_ifs with h1 h2 <;> simp_all

/-- Claim C7 is refuted here: at S = 2 with S0 = 1 the Delta-Gamma-Vega hedge
position of the source differs from the formula of the claim, whose
gamma term carries the extra 0.5 factor of Delta-Gamma hedging. -/
theorem claim_C7_counterexample :
    deltaGammaVegaHedgePosition constHalf constOne 0.5 0.01
        (mkStrategy 1 2 1 0 1 "call" 0) 2 1 ≠
      specDGVHedgePosition constHalf constOne 0.5 0.01
        (mkStrategy 1 2 1 0 1 "call" 0) 2 1 := by
  norm_num [deltaGammaVegaHedgePosition, specDGVHedgePosition, bsGreeks,
    mkStrategy, constHalf, constOne, Real.sqrt_one]

/-- Claim C7 amended: for tau > 0, DeltaGammaVegaHedging.get_hedge_positions
returns -option_position * (delta + gamma_weight * gamma * (S - S0)
+ vega_weight * vega * (sigma - 0.20)): the gamma adjustment multiplies
gamma * (S - S0) by gamma_weight alone, without the 0.5 factor that
Delta-Gamma hedging applies. -/
theorem claim_C7_amended (cdf pdf : ℝ → ℝ) (gamma_weight vega_weight : ℝ)
    (s : StrategyState) (S tau : ℝ) (htau : 0 < tau) :
    deltaGammaVegaHedgePosition cdf pdf gamma_weight vega_weight s S tau =
      (-s.option_position) *
        ((bsGreeks cdf pdf S s.K tau s.r s.sigma s.option_type).delta +
          gamma_weight *
            (bsGreeks cdf pdf S s.K tau s.r s.sigma s.option_type).gamma *
            (S - s.S0) +
          vega_weight *
            (bsGreeks cdf pdf S s.K tau s.r s.sigma s.option_type).vega *
            (s.sigma - 0.2)) := by
  rw [deltaGammaVegaHedgePosition, if_neg (not_le.mpr htau)]

/-- Witness for the amended claim C7 at a concrete configuration. -/
theorem claim_C7_amended_witness :
    deltaGammaVegaHedgePosition constHalf constOne 0.5 0.01
        (mkStrategy 1 2 1 0 1 "call" 0) 2 1 =
      (-(mkStrategy 1 2 1 0 1 "call" 0).option_position) *
        ((bsGreeks constHalf constOne 2 2 1 0 1 "call").delta +
          0.5 * (bsGreeks constHalf constOne 2 2 1 0 1 "call").gamma * (2 - 1) +
          0.01 * (bsGreeks constHalf constOne 2 2 1 0 1 "call").vega *
            (1 - 0.2)) :=
  claim_C7_amended constHalf constOne 0.5 0.01 (mkStrategy 1 2 1 0 1 "call" 0)
    2 1 (by norm_num)

/-- n draws from an arbitrary stream state enumerate the tokens of that
state's seed starting at its current draw count. -/
theorem npDrawN_eq (n : ℕ) (ls : Option ℕ) :
    ∀ c, npDrawN n ⟨ls, c⟩ =
      ((List.range n).map (fun k => ((ls, c + k) : RngToken)), ⟨ls, c + n⟩) := by
  induction n with
  | zero => intro c; simp [npDrawN]
  | succ n ih =>
    intro c
    rw [npDrawN]
    simp only [npDraw, ih (c + 1), List.range_succ_eq_map, List.map_cons,
      List.map_map]
    have hmap : List.map ((fun k => ((ls, c + k) : RngToken)) ∘ Nat.succ)
        (List.range n) =
        List.map (fun k => ((ls, c + 1 + k) : RngToken)) (List.range n) := by
      apply List.map_congr_left
      intro k _
      simp only [Function.comp_apply, Prod.mk.injEq, true_and]
      omega
    rw [hmap]
    simp only [Nat.add_zero, Prod.mk.injEq, NpRandom.mk.injEq, true_and]
    omega

/-- The episode loop maps every index to the token stream of its episode
seed whenever the backtest seed is nonzero. -/
theorem backtestGo_seeded (s : ℕ) (hs : s ≠ 0) (n_steps : ℕ) :
    ∀ (l : List ℕ) (g : NpRandom),
      (backtestGo (some s) n_steps l g).1 =
        l.map (fun i => seedTokens (s + i) n_steps) := by
  intro l
  induction l with
  | nil => intro g; rfl
  | cons i is ih =>
    intro g
    rw [backtestGo]
    simp only [simulatePathTokens, episodeSeedArg, if_pos hs, npSeed,
      npDrawN_eq, ih, List.map_cons]
    simp [seedTokens]

/-- Claim C9 is refuted here: with seed = 0 (a falsy value in Python),
episode 1 of a two-episode backtest with one step per path is drawn as the
second draw of the stream seeded 0 at backtest start, not from a stream
seeded 0 + 1. -/
theorem claim_C9_counterexample :
    (backtestTokens (some 0) 2 1 ⟨none, 0⟩).1 ≠
      [seedTokens (0 + 0) 1, seedTokens (0 + 1) 1] := by decide

/-- Claim C9 amended: for every nonzero seed s, backtest_strategy draws
episode i's price path from the stream freshly seeded with s + i, and for
every seed (zero included) the drawn episode token streams are independent of
the incoming global RNG state, so two runs with the same arguments produce
identical episode sets. -/
theorem claim_C9_amended (s num_episodes n_steps : ℕ) (g g2 : NpRandom) :
    (s ≠ 0 →
      (backtestTokens (some s) num_episodes n_steps g).1 =
        (List.range num_episodes).map
          (fun i => seedTokens (s + i) n_steps)) ∧
    (backtestTokens (some s) num_episodes n_steps g).1 =
      (backtestTokens (some s) num_episodes n_steps g2).1 := by
  constructor
  · intro hs
    unfold backtestTokens
    exact backtestGo_seeded s hs n_steps (List.range num_episodes) _
  · rfl

/-- Witness for the amended claim C9: seed 7, two episodes of two draws. -/
theorem claim_C9_amended_witness :
    (backtestTokens (some 7) 2 2 ⟨none, 5⟩).1 =
      (List.range 2).map (fun i => seedTokens (7 + i) 2) :=
  (claim_C9_amended 7 2 2 ⟨none, 5⟩ ⟨none, 5⟩).1 (by decide)

/-- One step call advances the step counter by one, preserves n_steps, and
reports terminated exactly when the incremented counter reaches n_steps,
with truncated always false. -/
theorem envStep_fields (cdf pdf : ℝ → ℝ) (e : EnvState) (a : HedgeAction)
    (w : ℝ) :
    (envStep cdf pdf e a w).1.current_step = e.current_step + 1 ∧
    (envStep cdf pdf e a w).1.n_steps = e.n_steps ∧
    (envStep cdf pdf e a w).2.2 =
      (decide (e.n_steps ≤ e.current_step + 1), false) :=
  ⟨rfl, rfl, rfl⟩

/-- The flags of the k-th step call in a run, counting calls from zero. -/
theorem runFlags_get (cdf pdf : ℝ → ℝ) (l : List (HedgeAction × ℝ)) :
    ∀ (e : EnvState) (k : ℕ), k < l.length →
      (runFlags cdf pdf e l).get? k =
        some (decide (e.n_steps ≤ e.current_step + k + 1), false) := by
  induction l with
  | nil =>
    intro e k hk
    simp at hk
  | cons hd tl ih =>
    obtain ⟨a, w⟩ := hd
    intro e k hk
    match k with
    | 0 =>
      rw [runFlags]
      exact congrArg some (envStep_fields cdf pdf e a w).2.2
    | k + 1 =>
      rw [runFlags]
      show (runFlags cdf pdf (envStep cdf pdf e a w).1 tl).get? k = _
      rw [ih (envStep cdf pdf e a w).1 k (by simpa using hk)]
      have harith : (envStep cdf pdf e a w).1.current_step + k + 1 =
          e.current_step + (k + 1) + 1 := by
        rw [(envStep_fields cdf pdf e a w).1]
        omega
      rw [(envStep_fields cdf pdf e a w).2.1, harith]

/-- envReset zeroes the step counter and keeps n_steps. -/
theorem envReset_fields (cdf : ℝ → ℝ) (e : EnvState) :
    (envReset cdf e).current_step = 0 ∧ (envReset cdf e).n_steps = e.n_steps :=
  ⟨rfl, rfl⟩

/-- Claim C6: for every valid environment configuration and action sequence,
exactly n_steps step calls after reset return terminated = False on every
call before the n_steps-th, terminated = True on the n_steps-th call, and
truncated = False on every call. -/
theorem claim_C6 (cdf pdf : ℝ → ℝ) (e : EnvState)
    (inputs : List (HedgeAction × ℝ)) (hn : 0 < e.n_steps)
    (hlen : inputs.length = e.n_steps) :
    (∀ k, k + 1 < e.n_steps →
      (runFlags cdf pdf (envReset cdf e) inputs).get? k =
        some (false, false)) ∧
    (runFlags cdf pdf (envReset cdf e) inputs).get? (e.n_steps - 1) =
      some (true, false) := by
  have hreset := envReset_fields cdf e
  constructor
  · intro k hk
    rw [runFlags_get cdf pdf inputs (envReset cdf e) k (by omega),
      hreset.1, hreset.2]
    congr 2
    simp only [decide_eq_false_iff_not]
    omega
  · rw [runFlags_get cdf pdf inputs (envReset cdf e) (e.n_steps - 1)
      (by omega), hreset.1, hreset.2]
    congr 2
    simp only [decide_eq_true_eq]
    omega

/-- Witness for claim C6 on a two-step episode. -/
theorem claim_C6_witness :
    (runFlags constHalf constOne (envReset constHalf sampleEnv)
        [(HedgeAction.cont 1, 0), (HedgeAction.cont 0, 0)]).get? 0 =
      some (false, false) ∧
    (runFlags constHalf constOne (envReset constHalf sampleEnv)
        [(HedgeAction.cont 1, 0), (HedgeAction.cont 0, 0)]).get? 1 =
      some (true, false) :=
  ⟨(claim_C6 constHalf constOne sampleEnv
      [(HedgeAction.cont 1, 0), (HedgeAction.cont 0, 0)]
      (by norm_num [sampleEnv]) (by norm_num [sampleEnv])).1 0
      (by norm_num [sampleEnv]),
   (claim_C6 constHalf constOne sampleEnv
      [(HedgeAction.cont 1, 0), (HedgeAction.cont 0, 0)]
      (by norm_num [sampleEnv]) (by norm_num [sampleEnv])).2⟩

/-- Claim C8: with fewer than 3 observations available (history length 0 or
1), MinimumVarianceHedging.get_hedge_positions returns the same stock
position as DeltaHedging.get_hedge_positions for the same constructor
parameters and the same (S, tau) with tau > 0. -/
theorem claim_C8 (cdf pdf : ℝ → ℝ) (m : MVState) (S tau : ℝ)
    (hhist : m.price_history.length ≤ 1) (htau : 0 < tau)
    (hopt : m.base.option_type = "call" ∨ m.base.option_type = "put") :
    (minVarHedgePosition cdf pdf m S tau).map Prod.fst =
      Except.ok (deltaHedgePosition cdf pdf m.base S tau) := by
  obtain ⟨v, hv⟩ := bsPrice_valid_ok cdf S m.base.K tau m.base.r m.base.sigma
    m.base.option_type hopt
  have hlen : ((if (m.price_history ++ [S]).length > m.lookback_window then
      lastWindow m.lookback_window (m.price_history ++ [S])
      else m.price_history ++ [S])).length < 3 := by
    have h0 : (m.price_history ++ [S]).length ≤ 2 := by
      simp only [List.length_append, List.length_cons, List.length_nil]
      omega
    split
    · exact lt_of_le_of_lt
        (le_trans (lastWindow_length_le _ _) h0) (by norm_num)
    · omega
  rw [minVarHedgePosition, deltaHedgePosition, if_neg (not_le.mpr htau),
    if_neg (not_le.mpr htau), hv]
  simp only [if_pos hlen]
  rfl

/-- Witness for claim C8: a freshly constructed minimum-variance strategy
(empty history) agrees with delta hedging. -/
theorem claim_C8_witness :
    (minVarHedgePosition constHalf constOne
        { base := mkStrategy 100 100 1 0.05 0.2 "call" 0.001
          lookback_window := 20, price_history := []
          option_value_history := [] } 100 1).map Prod.fst =
      Except.ok (deltaHedgePosition constHalf constOne
        (mkStrategy 100 100 1 0.05 0.2 "call" 0.001) 100 1) :=
  claim_C8 constHalf constOne
    { base := mkStrategy 100 100 1 0.05 0.2 "call" 0.001
      lookback_window := 20, price_history := [], option_value_history := [] }
    100 1 (by simp) (by norm_num) (Or.inl rfl)

/-- Claim C5: put-call parity.  For all valid inputs, the call price minus
the put price equals S - K * exp(-r T) exactly in real arithmetic, including
the T <= 0 intrinsic-value branch; the only analytic fact needed about the
normal cdf is cdf x + cdf (-x) = 1. -/
theorem claim_C5 (cdf : ℝ → ℝ) (hcdf : ∀ x, cdf x + cdf (-x) = 1)
    (S K T r sigma : ℝ) (hS : 0 < S) (hK : 0 < K) (hT : 0 ≤ T)
    (hsig : 0 < sigma) (c p : ℝ)
    (hc : bsPrice cdf S K T r sigma "call" = .ok c)
    (hp : bsPrice cdf S K T r sigma "put" = .ok p) :
    c - p = S - K * Real.exp (-r * T) := by
  by_cases h0 : T ≤ 0
  · have hT0 : T = 0 := le_antisymm h0 hT
    subst hT0
    rw [bsPrice, if_pos le_rfl, if_pos rfl] at hc
    rw [bsPrice, if_pos le_rfl, if_neg putNeCallStr] at hp
    injection hc with hc
    injection hp with hp
    subst hc
    subst hp
    rw [mul_zero, Real.exp_zero, mul_one]
    rcases le_total S K with h | h
    · rw [max_eq_right (by linarith : S - K ≤ (0 : ℝ)),
        max_eq_left (by linarith : (0 : ℝ) ≤ K - S)]
      ring
    · rw [max_eq_left (by linarith : (0 : ℝ) ≤ S - K),
        max_eq_right (by linarith : K - S ≤ (0 : ℝ))]
      ring
  · rw [bsPrice, if_neg h0] at hc hp
    simp only [] at hc hp
    rw [if_pos trivial] at hc
    rw [if_neg putNeCallStr, if_pos trivial] at hp
    injection hc with hc
    injection hp with hp
    subst hc
    subst hp
    have h1 := hcdf ((Real.log (S / K) + (r + 0.5 * sigma ^ 2) * T) /
      (sigma * Real.sqrt T))
    have h2 := hcdf ((Real.log (S / K) + (r + 0.5 * sigma ^ 2) * T) /
      (sigma * Real.sqrt T) - sigma * Real.sqrt T)
    linear_combination S * h1 - K * Real.exp (-r * T) * h2

/-- Witness for claim C5 at T = 0, S = K = 1, with the constant cdf. -/
theorem claim_C5_witness : (0 : ℝ) - 0 = 1 - 1 * Real.exp (-(0 : ℝ) * 0) :=
  claim_C5 constHalf (by intro x; norm_num [constHalf]) 1 1 0 0 1
    (by norm_num) (by norm_num) le_rfl (by norm_num) 0 0
    (by norm_num [bsPrice]) (by norm_num [bsPrice])

/-- Claim C1 (code bug evaluation): for a short at-the-money put with zero
transaction cost (S0 = K = 100, T = 1, r = 0, sigma = 1, instantiating the
normal cdf by the constant 1/2 and the pdf by 1), the portfolio value of
DeltaHedging immediately after initialize at (S0, T) is -100, not 0:
initialize debits cash by |position| * S0 although the put hedge is a short
stock position, so the short-sale proceeds are booked as a purchase. -/
theorem claim_C1_eval :
    ((initStrategy constHalf (deltaHedgePosition constHalf constOne)
        (mkStrategy 100 100 1 0 1 "put" 0)).bind
      (fun pr => (getPortfolioValue constHalf pr.2 100 1).map
        (fun info => info.portfolio_value))) = Except.ok (-100) := by
  have hprice : bsPrice constHalf 100 100 1 0 1 "put" = .ok 0 := by
    norm_num [bsPrice, constHalf]
  have hhedge : ∀ s : StrategyState, s.K = 100 → s.r = 0 → s.sigma = 1 →
      s.option_type = "put" → s.option_position = -1 →
      deltaHedgePosition constHalf constOne s 100 1 = -(1 / 2) := by
    intro s hK hr hsig hot hop
    norm_num [deltaHedgePosition, bsGreeks, constHalf, hK, hr, hsig, hot, hop]
  rw [initStrategy]
  simp only [mkStrategy]
  rw [hprice]
  simp only [hhedge]
  norm_num [Except.bind, getPortfolioValue, hprice, abs_neg, abs_of_nonneg]
  rfl

/-- Claim C2 (code bug evaluation): on the same short-put configuration with
stock_position = 0 and target hedge p = -1/2 at price S = S0 = 100, the
initial trade of initialize changes cash by -50 (it debits |p| * S), while a
rebalance to the same target changes cash by +50 (it debits the signed
p * S); the two cash changes differ for a negative target. -/
theorem claim_C2_eval :
    ((initStrategy constHalf (deltaHedgePosition constHalf constOne)
        (mkStrategy 100 100 1 0 1 "put" 0)).map
      (fun pr => pr.2.cash - pr.1)) = Except.ok (-50) ∧
    ((rebalance (deltaHedgePosition constHalf constOne)
        (mkStrategy 100 100 1 0 1 "put" 0) 100 1).2.cash -
      (mkStrategy 100 100 1 0 1 "put" 0).cash) = 50 ∧
    ((-50 : ℝ) ≠ 50) := by
  have hprice : bsPrice constHalf 100 100 1 0 1 "put" = .ok 0 := by
    norm_num [bsPrice, constHalf]
  have hhedge : ∀ s : StrategyState, s.K = 100 → s.r = 0 → s.sigma = 1 →
      s.option_type = "put" → s.option_position = -1 →
      deltaHedgePosition constHalf constOne s 100 1 = -(1 / 2) := by
    intro s hK hr hsig hot hop
    norm_num [deltaHedgePosition, bsGreeks, constHalf, hK, hr, hsig, hot, hop]
  refine ⟨?_, ?_, by norm_num⟩
  · rw [initStrategy]
    simp only [mkStrategy]
    rw [hprice]
    simp only [hhedge]
    norm_num [abs_neg, abs_of_nonneg, Except.map]
  · rw [rebalance]
    simp only [mkStrategy]
    simp only [hhedge]
    norm_num
